import Mathlib

/-!
Verification of the universal-happy-cli core subsystem against its
natural-language specification.

The development shallowly embeds the four core components
(`StreamParser.ts`, `FormatProcessor.ts`, `ProcessManager.ts`,
`SessionManager.ts`) of `src/universal/`:

* strings are embedded as `List Char` (JS strings are sequences of
  code units; every input considered here is a sequence of code points,
  where the two notions agree);
* byte buffers are embedded as `List Nat`, with values < 256;
* `Map`s keyed by strings become association lists `List (String × _)`
  (or, for string-valued maps such as environments, total functions
  `String → Option String`);
* asynchronous interactions with the operating system (spawn
  confirmation, the graceful-kill grace wait) are condensed to oracle
  parameters that record the outcome the awaited event would report;
* wall-clock reads (`Date.now()`) become an explicit `now : Nat`
  argument.

Every definition is translated from the TypeScript source; comments on
individual definitions point at the function they embed.
-/

namespace UHappy

/-! ## StreamParser.ts — the Stream Assembler -/

namespace StreamParser

/-- One step of JavaScript `String.prototype.split(sep)`: the first
component accumulates the finished segments, the second the segment
currently being built. -/
def splitStep (sep : Char) (acc : List (List Char) × List Char) (c : Char) :
    List (List Char) × List Char :=
  if c = sep then (acc.1 ++ [acc.2], []) else (acc.1, acc.2 ++ [c])

/-- `splitPair sep l` is `l.split(sep)` presented as (all segments but the
last, last segment) — exactly the shape `processRealTimeStream` consumes
(`lines.slice(0,-1)` and `lines[lines.length-1]`). -/
def splitPair (sep : Char) (l : List Char) : List (List Char) × List Char :=
  l.foldl (splitStep sep) ([], [])

/-- JavaScript `l.split(sep)` as a plain list; it is never empty. -/
def jsSplit (sep : Char) (l : List Char) : List (List Char) :=
  (splitPair sep l).1 ++ [(splitPair sep l).2]

/-- The whitespace characters of JavaScript `\s` / `String.trim` that are
reachable from the byte-decoded inputs handled here (the ASCII ones; the
Unicode space characters behave identically and never occur in the
claims' inputs). -/
def isJsWhitespace (c : Char) : Bool :=
  c = ' ' || c = '\t' || c = '\n' || c = '\r' || c = '\x0b' || c = '\x0c'

/-- JavaScript `String.prototype.trim`. -/
def trimJs (l : List Char) : List Char :=
  ((l.dropWhile isJsWhitespace).reverse.dropWhile isJsWhitespace).reverse

/-- `normalized.replace(/\x07/g, '')` — remove bell characters. -/
def removeBells (l : List Char) : List Char :=
  l.filter (fun c => c != '\x07')

/-- `normalized.replace(/\s+/g, ' ')` — collapse every whitespace run to a
single space. -/
def collapseWhitespace : List Char → List Char
  | [] => []
  | c :: cs =>
    if isJsWhitespace c then
      match cs with
      | [] => [' ']
      | d :: _ =>
        if isJsWhitespace d then collapseWhitespace cs
        else ' ' :: collapseWhitespace cs
    else c :: collapseWhitespace cs

/-- `normalized.replace(/\r+$/, '')` — strip trailing carriage returns. -/
def stripTrailingCR (l : List Char) : List Char :=
  (l.reverse.dropWhile (fun c => c == '\r')).reverse

/-- `StreamParser.processSingleLine` composed with
`normalizeCommonPatterns`: trim, strip bells, collapse whitespace, strip
trailing carriage returns. -/
def processSingleLine (l : List Char) : List Char :=
  stripTrailingCR (collapseWhitespace (removeBells (trimJs l)))

/-- The progress glyphs checked by
`FormatProcessor.containsProgressIndicators`. -/
def progressChars : List Char :=
  ['█', '▓', '▒', '░', '⠁', '⠂', '⠄', '|', '\\', '/', '-']

/-- `FormatProcessor.containsProgressIndicators`. -/
def containsProgressIndicators (text : List Char) : Bool :=
  progressChars.any (fun c => text.contains c) ||
    text.contains '%' || text.contains '\r'

/-- `newText.endsWith('\r')`. -/
def endsWithCR (text : List Char) : Bool :=
  text.getLast? == some '\r'

/-- The loop of `StreamParser.handleCarriageReturn` over `parts[1..]`:
an intermediate part is appended as a completed line (joined by `'\n'`)
when non-empty; the final part, when the chunk does not end in `'\r'`,
replaces the whole accumulated result. -/
def hcrLoop (endsCR : Bool) (acc : List Char) : List (List Char) → List Char
  | [] => acc
  | [p] =>
    if endsCR then (if p.isEmpty then acc else acc ++ '\n' :: p)
    else p
  | p :: q :: rest =>
    hcrLoop endsCR (if p.isEmpty then acc else acc ++ '\n' :: p) (q :: rest)

/-- `StreamParser.handleCarriageReturn`. -/
def handleCarriageReturn (existingLine newText : List Char) : List Char :=
  match jsSplit '\r' newText with
  | [] => existingLine ++ newText
  | [_] => existingLine ++ newText
  | p0 :: p1 :: rest =>
    hcrLoop (endsWithCR newText) (existingLine ++ p0) (p1 :: rest)

/-- `StreamParser.maxLineLength`. -/
def maxLineLength : Nat := 100000

/-- Result of one `processRealTimeStream` call.  `newPending` is the value
left in `lineBuffers` for the (session, channel) key; `incompleteLine`
embeds the source's optional partial-line field (the line-completion
timer that is armed alongside it is a real-time mechanism outside this
embedding). -/
structure RTResult where
  completeLines : List (List Char)
  incompleteLine : Option (List Char)
  hasProgress : Bool
  newPending : List Char
deriving DecidableEq

/-- `StreamParser.processRealTimeStream` for one (session, channel):
`pending` is the current `lineBuffers` entry, `text` the UTF-8-decoded
chunk. -/
def processRealTimeStream (pending text : List Char) : RTResult :=
  let hasProgress := containsProgressIndicators text
  let combinedText :=
    if '\r' ∈ text then handleCarriageReturn pending text
    else pending ++ text
  let sp := splitPair '\n' combinedText
  let completeLines := (sp.1.filter (fun l => !l.isEmpty)).map processSingleLine
  let lastLine := sp.2
  if lastLine.length > maxLineLength then
    { completeLines := completeLines ++ [processSingleLine lastLine],
      incompleteLine := none, hasProgress := hasProgress, newPending := [] }
  else
    { completeLines := completeLines,
      incompleteLine :=
        if lastLine.isEmpty then none else some (processSingleLine lastLine),
      hasProgress := hasProgress, newPending := lastLine }

/-- Delivering a sequence of chunks, in order, to `processRealTimeStream`
on one (session, channel): the emitted completed lines in emission order,
and the final pending content. -/
def runRT (chunks : List (List Char)) : List (List Char) × List Char :=
  chunks.foldl
    (fun acc t =>
      let r := processRealTimeStream acc.2 t
      (acc.1 ++ r.completeLines, r.newPending))
    ([], [])

end StreamParser

/-! ## FormatProcessor.ts — the Format Engine -/

namespace FormatProcessor

/-- The channel a chunk of output came from (`'stdout' | 'stderr'`). -/
inductive StreamSource where
  | stdout
  | stderr
deriving DecidableEq

/-- The serialization selector (`OutputFormat`). -/
inductive OutputFormat where
  | raw
  | text
  | html
  | json
deriving DecidableEq

/-- The Unicode replacement character U+FFFD. -/
def replacementChar : Char := Char.ofNat 0xFFFD

/-- Model of Node's `Buffer.prototype.toString('utf8')` (WHATWG UTF-8
decoding with replacement characters), with fuel for termination (the
fuel `bs.length` is never exhausted, since every step consumes at least
one byte).  Error recovery on malformed multi-byte sequences is
condensed to one replacement character per offending byte; every input
appearing in a theorem below is plain ASCII, where the model is exact. -/
def utf8DecodeF : Nat → List Nat → List Char
  | _, [] => []
  | 0, bs => bs.map (fun _ => replacementChar)
  | fuel + 1, b :: bs =>
    if b < 0x80 then Char.ofNat b :: utf8DecodeF fuel bs
    else if 0xC2 ≤ b && b ≤ 0xDF then
      match bs with
      | b1 :: bs2 =>
        if 0x80 ≤ b1 && b1 ≤ 0xBF then
          Char.ofNat ((b - 0xC0) * 0x40 + (b1 - 0x80)) :: utf8DecodeF fuel bs2
        else replacementChar :: utf8DecodeF fuel bs
      | [] => [replacementChar]
    else if 0xE0 ≤ b && b ≤ 0xEF then
      match bs with
      | b1 :: b2 :: bs2 =>
        if (if b = 0xE0 then 0xA0 else 0x80) ≤ b1 &&
            b1 ≤ (if b = 0xED then 0x9F else 0xBF) &&
            0x80 ≤ b2 && b2 ≤ 0xBF then
          Char.ofNat ((b - 0xE0) * 0x1000 + (b1 - 0x80) * 0x40 + (b2 - 0x80)) ::
            utf8DecodeF fuel bs2
        else replacementChar :: utf8DecodeF fuel bs
      | _ => replacementChar :: utf8DecodeF fuel bs
    else if 0xF0 ≤ b && b ≤ 0xF4 then
      match bs with
      | b1 :: b2 :: b3 :: bs2 =>
        if (if b = 0xF0 then 0x90 else 0x80) ≤ b1 &&
            b1 ≤ (if b = 0xF4 then 0x8F else 0xBF) &&
            0x80 ≤ b2 && b2 ≤ 0xBF && 0x80 ≤ b3 && b3 ≤ 0xBF then
          Char.ofNat ((b - 0xF0) * 0x40000 + (b1 - 0x80) * 0x1000 +
              (b2 - 0x80) * 0x40 + (b3 - 0x80)) :: utf8DecodeF fuel bs2
        else replacementChar :: utf8DecodeF fuel bs
      | _ => replacementChar :: utf8DecodeF fuel bs
    else replacementChar :: utf8DecodeF fuel bs

/-- UTF-8 decoding of a byte buffer. -/
def utf8Decode (bs : List Nat) : List Char := utf8DecodeF bs.length bs

/-- Characters admitted by the parameter part `[0-9;]*` of the CSI
pattern `ansiRegex = /\x1b\[[0-9;]*[a-zA-Z]/`. -/
def isCSIParamChar (c : Char) : Bool := c.isDigit || c = ';'

/-- The final-byte class `[a-zA-Z]` of `ansiRegex`. -/
def isAsciiAlpha (c : Char) : Bool :=
  ('a' ≤ c && c ≤ 'z') || ('A' ≤ c && c ≤ 'Z')

/-- Attempt to match `ansiRegex` at the head of the text; on success
returns the matched escape sequence and the remaining text.  (The
parameter run `[0-9;]*` is greedy, and since no parameter character is a
letter, regex backtracking can never produce a match that the greedy run
misses.) -/
def matchCSIAt : List Char → Option (List Char × List Char)
  | '\x1b' :: '[' :: rest =>
    let ps := rest.takeWhile isCSIParamChar
    match rest.dropWhile isCSIParamChar with
    | c :: rest2 =>
      if isAsciiAlpha c then some ('\x1b' :: '[' :: (ps ++ [c]), rest2)
      else none
    | [] => none
  | _ => none

/-- Scan a text for `ansiRegex` matches the way a global JavaScript regex
does: at each position, emit a match and resume after it, otherwise
emit the literal character and advance by one.  Fueled for termination;
`fuel = length` always suffices since each step consumes at least one
character. -/
def scanAnsiF : Nat → List Char → List (Sum Char (List Char))
  | _, [] => []
  | 0, rest => rest.map Sum.inl
  | fuel + 1, c :: cs =>
    match matchCSIAt (c :: cs) with
    | some (m, rest) => Sum.inr m :: scanAnsiF fuel rest
    | none => Sum.inl c :: scanAnsiF fuel cs

/-- All `ansiRegex` matches and interleaved literal text of a string. -/
def scanAnsi (l : List Char) : List (Sum Char (List Char)) :=
  scanAnsiF l.length l

/-- `FormatProcessor.stripAnsi`: drop every CSI escape sequence. -/
def stripAnsi (input : List Char) : List Char :=
  (scanAnsi input).foldr
    (fun x acc =>
      match x with
      | Sum.inl c => c :: acc
      | Sum.inr _ => acc)
    []

/-- `AnsiSequence.type` (`'color' | 'cursor' | 'erase' | 'style' |
'unknown'`). -/
inductive AnsiSequenceType where
  | color
  | cursor
  | erase
  | style
  | unknown
deriving DecidableEq

/-- `parseInt(p, 10)` on a non-empty all-digit token (the only tokens the
filter below lets through). -/
def digitsToNat (t : List Char) : Nat :=
  t.foldl (fun a c => a * 10 + (c.toNat - 48)) 0

/-- `FormatProcessor.extractParams`: the parameter group of
`ansiParamRegex = /\x1b\[([0-9;]*)[a-zA-Z]/`, split on `;`, empty tokens
dropped, tokens parsed as base-10 integers.  (The codes this is applied
to are exactly the strings matched by `ansiRegex`, which this pattern
matches at offset 0.) -/
def extractParams (code : List Char) : List Nat :=
  match code with
  | '\x1b' :: '[' :: rest =>
    let ps := rest.takeWhile isCSIParamChar
    match rest.dropWhile isCSIParamChar with
    | c :: _ =>
      if isAsciiAlpha c then
        ((StreamParser.jsSplit ';' ps).filter (fun t => !t.isEmpty)).map digitsToNat
      else []
    | [] => []
  | _ => []

/-- `FormatProcessor.detectSequenceType`: classify by the final byte. -/
def detectSequenceType (code : List Char) : AnsiSequenceType :=
  match code.getLast? with
  | some 'm' => .color
  | some 'H' | some 'f' => .cursor
  | some 'A' | some 'B' | some 'C' | some 'D' => .cursor
  | some 'J' | some 'K' => .erase
  | some 'S' | some 'T' => .cursor
  | some 's' | some 'u' => .cursor
  | some 'h' | some 'l' => .style
  | _ => .unknown

/-- One parsed escape sequence (`AnsiSequence` in `types.ts`).  The
`description` field — a human-readable rendering produced by
`describeSequence` and consumed by nothing in the core — is not
modelled; no claim mentions it. -/
structure AnsiSequence where
  type : AnsiSequenceType
  code : List Char
  params : List Nat
  position : Nat
deriving DecidableEq

/-- The walk of `parseAnsi`'s `exec` loop over the scan of the input,
tracking `match.index` as the running position. -/
def parseAnsiAux : Nat → List (Sum Char (List Char)) → List AnsiSequence
  | _, [] => []
  | pos, Sum.inl _ :: rest => parseAnsiAux (pos + 1) rest
  | pos, Sum.inr m :: rest =>
    { type := detectSequenceType m, code := m, params := extractParams m,
      position := pos } :: parseAnsiAux (pos + m.length) rest

/-- `FormatProcessor.parseAnsi`. -/
def parseAnsi (input : List Char) : List AnsiSequence :=
  parseAnsiAux 0 (scanAnsi input)

/-- The `colorCodes` map, restricted to its hex values (the names are
used only in the unmodelled `describeSequence`). -/
def colorHex (n : Nat) : Option (List Char) :=
  match n with
  | 30 => some ("#000000").data
  | 31 => some ("#cd0000").data
  | 32 => some ("#00cd00").data
  | 33 => some ("#cdcd00").data
  | 34 => some ("#0000ee").data
  | 35 => some ("#cd00cd").data
  | 36 => some ("#00cdcd").data
  | 37 => some ("#e5e5e5").data
  | 90 => some ("#7f7f7f").data
  | 91 => some ("#ff0000").data
  | 92 => some ("#00ff00").data
  | 93 => some ("#ffff00").data
  | 94 => some ("#5c5cff").data
  | 95 => some ("#ff00ff").data
  | 96 => some ("#00ffff").data
  | 97 => some ("#ffffff").data
  | 40 => some ("#000000").data
  | 41 => some ("#cd0000").data
  | 42 => some ("#00cd00").data
  | 43 => some ("#cdcd00").data
  | 44 => some ("#0000ee").data
  | 45 => some ("#cd00cd").data
  | 46 => some ("#00cdcd").data
  | 47 => some ("#e5e5e5").data
  | 100 => some ("#7f7f7f").data
  | 101 => some ("#ff0000").data
  | 102 => some ("#00ff00").data
  | 103 => some ("#ffff00").data
  | 104 => some ("#5c5cff").data
  | 105 => some ("#ff00ff").data
  | 106 => some ("#00ffff").data
  | 107 => some ("#ffffff").data
  | _ => none

/-- The mutable style tracker of `ansiToHtml`. -/
structure HtmlStyles where
  color : List Char
  backgroundColor : List Char
  bold : Bool
  italic : Bool
  underline : Bool
deriving DecidableEq

/-- The style state `ansiToHtml` starts from (and resets to on SGR 0). -/
def initialStyles : HtmlStyles :=
  { color := [], backgroundColor := [], bold := false, italic := false,
    underline := false }

/-- `openTags.reverse().map(tag => ` the closing tag `).join('')`. -/
def closeTags (openTags : List (List Char)) : List Char :=
  (openTags.reverse.map (fun tag => ('<' :: '/' :: tag) ++ ['>'])).flatten

/-- One iteration of the `for (const param of params)` loop in
`ansiToHtml`: given (open tags, current styles), returns the new state
and the HTML emitted for this parameter. -/
def applyHtmlParam (st : List (List Char) × HtmlStyles) (p : Nat) :
    (List (List Char) × HtmlStyles) × List Char :=
  if p = 0 then
    (([], initialStyles), closeTags st.1)
  else if p = 1 then
    if st.2.bold then (st, [])
    else ((st.1 ++ [("strong").data], { st.2 with bold := true }),
      ("<strong>").data)
  else if p = 3 then
    if st.2.italic then (st, [])
    else ((st.1 ++ [("em").data], { st.2 with italic := true }), ("<em>").data)
  else if p = 4 then
    if st.2.underline then (st, [])
    else ((st.1 ++ [("u").data], { st.2 with underline := true }), ("<u>").data)
  else if 30 ≤ p ∧ p ≤ 37 then
    match colorHex p with
    | some hex =>
      if st.2.color = hex then (st, [])
      else ((st.1 ++ [("span").data], { st.2 with color := hex }),
        ("<span style=\"color: ").data ++ hex ++ ("\">").data)
    | none => (st, [])
  else if 40 ≤ p ∧ p ≤ 47 then
    match colorHex p with
    | some hex =>
      if st.2.backgroundColor = hex then (st, [])
      else ((st.1 ++ [("span").data], { st.2 with backgroundColor := hex }),
        ("<span style=\"background-color: ").data ++ hex ++ ("\">").data)
    | none => (st, [])
  else (st, [])

/-- The whole parameter loop of one escape-sequence replacement. -/
def applyHtmlParams (st : List (List Char) × HtmlStyles) (ps : List Nat) :
    (List (List Char) × HtmlStyles) × List Char :=
  ps.foldl
    (fun acc p =>
      let r := applyHtmlParam acc.1 p
      (r.1, acc.2 ++ r.2))
    (st, [])

/-- `l.replace(/c/g, repl)` for a single character. -/
def replaceChar (c : Char) (repl : List Char) (l : List Char) : List Char :=
  l.foldr (fun x acc => if x = c then repl ++ acc else x :: acc) []

/-- The four final `replace` passes of `ansiToHtml`, in source order:
`&`, then `<`, then `>`, then newlines.  Note that they run over the
whole accumulated string, generated markup included. -/
def escapeHtmlChars (l : List Char) : List Char :=
  replaceChar '\n' ("<br>").data
    (replaceChar '>' ("&gt;").data
      (replaceChar '<' ("&lt;").data
        (replaceChar '&' ("&amp;").data l)))

/-- `FormatProcessor.ansiToHtml`. -/
def ansiToHtml (ansi : List Char) : List Char :=
  let r := (scanAnsi ansi).foldl
    (fun (acc : List Char × (List (List Char) × HtmlStyles)) x =>
      match x with
      | Sum.inl c => (acc.1 ++ [c], acc.2)
      | Sum.inr m =>
        let pr := applyHtmlParams acc.2 (extractParams m)
        (acc.1 ++ pr.2, pr.1))
    ([], ([], initialStyles))
  escapeHtmlChars (r.1 ++ closeTags r.2.1)

/-- The base64 alphabet used by `Buffer.prototype.toString('base64')`. -/
def b64Alphabet : List Char :=
  ("ABCDEFGHIJKLMNOPQRSTUVWXYZabcdefghijklmnopqrstuvwxyz0123456789+/").data

/-- Index-to-character table lookup. -/
def sixToChar (n : Nat) : Char := b64Alphabet.getD n 'A'

/-- Character-to-index table lookup. -/
def charToSixAux : List Char → Nat → Char → Option Nat
  | [], _, _ => none
  | a :: as, i, c => if a = c then some i else charToSixAux as (i + 1) c

/-- Inverse table lookup for the base64 alphabet. -/
def charToSix (c : Char) : Option Nat := charToSixAux b64Alphabet 0 c

/-- Standard base64 with padding, as produced by
`Buffer.prototype.toString('base64')` (a platform builtin; modelled from
its specification). -/
def b64Encode : List Nat → List Char
  | [] => []
  | [b0] => [sixToChar (b0 / 4), sixToChar (b0 % 4 * 16), '=', '=']
  | [b0, b1] =>
    [sixToChar (b0 / 4), sixToChar (b0 % 4 * 16 + b1 / 16),
     sixToChar (b1 % 16 * 4), '=']
  | b0 :: b1 :: b2 :: rest =>
    sixToChar (b0 / 4) :: sixToChar (b0 % 4 * 16 + b1 / 16) ::
      sixToChar (b1 % 16 * 4 + b2 / 64) :: sixToChar (b2 % 64) ::
      b64Encode rest

/-- Standard base64 decoding with padding (the decoder "base64-decoding"
in the claim refers to; modelled from the base64 specification). -/
def b64Decode : List Char → Option (List Nat)
  | [] => some []
  | c0 :: c1 :: c2 :: c3 :: rest =>
    if c2 = '=' ∧ c3 = '=' ∧ rest = [] then
      match charToSix c0, charToSix c1 with
      | some a, some b => some [a * 4 + b / 16]
      | _, _ => none
    else if c3 = '=' ∧ rest = [] then
      match charToSix c0, charToSix c1, charToSix c2 with
      | some a, some b, some c => some [a * 4 + b / 16, b % 16 * 16 + c / 4]
      | _, _, _ => none
    else
      match charToSix c0, charToSix c1, charToSix c2, charToSix c3,
          b64Decode rest with
      | some a, some b, some c, some d, some r =>
        some ((a * 4 + b / 16) :: (b % 16 * 16 + c / 4) :: (c % 4 * 64 + d) :: r)
      | _, _, _, _, _ => none
  | _ => none

/-- One captured output record (`TerminalOutput` in `types.ts`). -/
structure TerminalOutput where
  raw : List Nat
  text : List Char
  ansi : List Char
  formatted : List AnsiSequence
  source : StreamSource
  timestamp : Nat
deriving DecidableEq

/-- `FormatProcessor.processOutput`; `now` stands for the `Date.now()`
read. -/
def processOutput (data : List Nat) (source : StreamSource) (now : Nat) :
    TerminalOutput :=
  let ansi := utf8Decode data
  { raw := data, text := stripAnsi ansi, ansi := ansi,
    formatted := parseAnsi ansi, source := source, timestamp := now }

/-- Lower-case hex digit, as used by JSON string escapes. -/
def hexDigit (n : Nat) : Char :=
  if n < 10 then Char.ofNat (48 + n) else Char.ofNat (87 + n)

/-- `JSON.stringify` escaping of one character. -/
def jsonEscapeChar (c : Char) : List Char :=
  if c = '"' then ['\\', '"']
  else if c = '\\' then ['\\', '\\']
  else if c = '\x08' then ['\\', 'b']
  else if c = '\t' then ['\\', 't']
  else if c = '\n' then ['\\', 'n']
  else if c = '\x0c' then ['\\', 'f']
  else if c = '\r' then ['\\', 'r']
  else if c.toNat < 32 then
    ['\\', 'u', '0', '0', hexDigit (c.toNat / 16), hexDigit (c.toNat % 16)]
  else [c]

/-- A JSON string literal. -/
def jsonString (l : List Char) : List Char :=
  '"' :: (l.map jsonEscapeChar).flatten ++ ['"']

/-- Comma-join of rendered JSON values. -/
def joinComma : List (List Char) → List Char
  | [] => []
  | [x] => x
  | x :: y :: rest => x ++ ',' :: joinComma (y :: rest)

/-- The wire name of a channel. -/
def sourceName : StreamSource → List Char
  | .stdout => ("stdout").data
  | .stderr => ("stderr").data

/-- The wire name of a sequence type. -/
def seqTypeName : AnsiSequenceType → List Char
  | .color => ("color").data
  | .cursor => ("cursor").data
  | .erase => ("erase").data
  | .style => ("style").data
  | .unknown => ("unknown").data

/-- JSON rendering of one parsed sequence.  Mirrors the object shape
`JSON.stringify` receives; the unmodelled `description` field and the
2-space pretty-printing of `JSON.stringify(.., null, 2)` are not
reproduced — no claim inspects the json serialization's text. -/
def jsonOfSequence (s : AnsiSequence) : List Char :=
  ("\x7b\"type\":").data ++ jsonString (seqTypeName s.type) ++
    (",\"code\":").data ++ jsonString s.code ++
    (",\"params\":[").data ++
    joinComma (s.params.map (fun n => (Nat.repr n).data)) ++
    ("],\"position\":").data ++ (Nat.repr s.position).data ++ ("\x7d").data

/-- JSON rendering of a `TerminalOutput`, as in the `'json'` branch of
`serializeForTransmission`. -/
def jsonOfOutput (o : TerminalOutput) : List Char :=
  ("\x7b\"text\":").data ++ jsonString o.text ++
    (",\"ansi\":").data ++ jsonString o.ansi ++
    (",\"formatted\":[").data ++ joinComma (o.formatted.map jsonOfSequence) ++
    ("],\"source\":").data ++ jsonString (sourceName o.source) ++
    (",\"timestamp\":").data ++ (Nat.repr o.timestamp).data ++ ("\x7d").data

/-- `FormatProcessor.serializeForTransmission`. -/
def serializeForTransmission (output : TerminalOutput) (format : OutputFormat) :
    List Char :=
  match format with
  | .raw => b64Encode output.raw
  | .text => output.text
  | .html => ansiToHtml output.ansi
  | .json => jsonOfOutput output

/-- The raw bytes of the claim-C4 input `"\x1b[31mRed\x1b[0m"`. -/
def c4Bytes : List Nat := ("\x1b[31mRed\x1b[0m").data.map Char.toNat

end FormatProcessor

/-- JavaScript `x || undefined` on a nullable number: `null` and `0` are
falsy and become `undefined`. -/
def jsOrUndefinedInt (x : Option Int) : Option Int :=
  match x with
  | some v => if v = 0 then none else some v
  | none => none

/-- JavaScript `x || undefined` on a nullable string: `null` and the
empty string are falsy and become `undefined`. -/
def jsOrUndefinedStr (x : Option (List Char)) : Option (List Char) :=
  match x with
  | some s => if s.isEmpty then none else some s
  | none => none

/-! ## ProcessManager.ts — the Process Supervisor -/

namespace ProcessManager

/-- `ManagedProcess.status`. -/
inductive ProcessStatus where
  | starting
  | running
  | paused
  | terminated
  | error
deriving DecidableEq

/-- One tracked process (`ManagedProcess`).  The id is the key of the
surrounding map; the `config`, `startTime` and the OS process handle are
write-only from the operations the claims are about and are omitted. -/
structure ManagedProcess where
  status : ProcessStatus
  pid : Option Nat
  exitCode : Option Int
  signal : Option (List Char)
deriving DecidableEq

deriving instance DecidableEq for Except

/-- `ProcessManager.maxProcesses`. -/
def maxProcesses : Nat := 50

/-- The error taxonomy of the Process Supervisor: the source throws
`Error`s whose messages correspond to these cases (spec §7 names them
`DuplicateId`, `ResourceExhausted`, `SpawnFailed`, `NotFound`). -/
inductive PMError where
  | duplicateId
  | resourceExhausted
  | spawnFailed
  | notFound
deriving DecidableEq

/-- `ProcessManager.spawn`, with the asynchronous OS interaction
condensed into the oracle `osPid`: `some pid` when the OS accepts the
spawn within the 5-second `waitForSpawn` window, `none` on a spawn error
or timeout.  Returns the result together with the tracked-process map
after the call: in the source the failure path first inserts the entry
(status `starting`) and then deletes it, which nets to the unchanged map
because the duplicate check has already ruled the id out; the success
path inserts the entry and marks it `running`. -/
def spawn (processes : List (String × ManagedProcess)) (processId : String)
    (osPid : Option Nat) :
    Except PMError ManagedProcess × List (String × ManagedProcess) :=
  if (processes.lookup processId).isSome then (.error .duplicateId, processes)
  else if maxProcesses ≤ processes.length then
    (.error .resourceExhausted, processes)
  else
    match osPid with
    | some pid =>
      let mp : ManagedProcess :=
        { status := .running, pid := some pid, exitCode := none, signal := none }
      (.ok mp, processes ++ [(processId, mp)])
    | none => (.error .spawnFailed, processes)

/-- The environment computed by `ProcessManager.createChildProcess`:
`{ ...process.env, ...config.env, LANG: 'en_US.UTF-8',
LC_ALL: 'en_US.UTF-8' }` — later spread entries win, and the two locale
literals come last. -/
def spawnEnv (procEnv cfgEnv : String → Option String) :
    String → Option String :=
  fun k =>
    if k = "LANG" then some "en_US.UTF-8"
    else if k = "LC_ALL" then some "en_US.UTF-8"
    else
      match cfgEnv k with
      | some v => some v
      | none => procEnv k

/-- In-place status update of one map entry. -/
def setStatus (processes : List (String × ManagedProcess)) (processId : String)
    (st : ProcessStatus) : List (String × ManagedProcess) :=
  processes.map (fun e => if e.1 = processId then (e.1, { e.2 with status := st }) else e)

/-- `ProcessManager.kill`.  The asynchronous `waitForTermination` grace
wait is condensed into the oracle `exitsWithinGrace` (did the exit
notification arrive during the 5-second wait).  Returns (result, map
after the call, signals delivered to the OS process in order).  The
updates the exit handler itself performs during the wait are modelled by
the status write the source does at the end of `kill`. -/
def kill (processes : List (String × ManagedProcess)) (processId : String)
    (signal : List Char) (exitsWithinGrace : Bool) :
    Except PMError Unit × List (String × ManagedProcess) × List (List Char) :=
  match processes.lookup processId with
  | none => (.error .notFound, processes, [])
  | some mp =>
    if mp.status = .terminated then (.ok (), processes, [])
    else
      let delivered :=
        if signal = ("SIGTERM").data ∧ mp.pid.isSome then
          if exitsWithinGrace then [("SIGTERM").data]
          else [("SIGTERM").data, ("SIGKILL").data]
        else [signal]
      (.ok (), setStatus processes processId .terminated, delivered)

/-- The `'exit'` listener installed by
`ProcessManager.setupProcessHandlers`: note both `code` and `signal` go
through `|| undefined`. -/
def onChildExit (p : ManagedProcess) (code : Option Int)
    (signal : Option (List Char)) : ManagedProcess :=
  { p with
    status := .terminated
    exitCode := jsOrUndefinedInt code
    signal := jsOrUndefinedStr signal }

/-- A tracked-process map at the 50-process cap (ids `p0` … `p49`). -/
def fullProcessSet : List (String × ManagedProcess) :=
  (List.range 50).map
    (fun i => ("p" ++ Nat.repr i,
      { status := .running
        pid := some (1000 + i)
        exitCode := none
        signal := none }))

/-- A single-entry map whose process has already terminated. -/
def c7Processes : List (String × ManagedProcess) :=
  [("p0",
    { status := .terminated
      pid := some 7
      exitCode := none
      signal := some (("SIGTERM").data) })]

end ProcessManager

/-! ## SessionManager.ts — the Session Orchestrator -/

namespace SessionManager

/-- `Session.status`. -/
inductive SessionStatus where
  | idle
  | running
  | paused
  | terminated
  | error
deriving DecidableEq

/-- One session (`Session` in `types.ts`), restricted to the fields the
handlers below read or write.  The identity/command/environment fields
are constant under every operation modelled here, `inputHistory` and
`remoteConnections` are touched only by operations outside the claims,
and `pid`/`startTime` are write-once bookkeeping. -/
structure Session where
  status : SessionStatus
  exitCode : Option Int
  outputHistory : List FormatProcessor.TerminalOutput
  lastActivity : Nat
deriving DecidableEq

/-- `SessionManager.handleProcessOutput`'s history update: push the new
record, then compact to the most recent 5000 once the length exceeds
10000 (`history.slice(-5000)` keeps the last 5000 elements, i.e. drops
`length - 5000` from the front). -/
def pushHistory (history : List FormatProcessor.TerminalOutput)
    (o : FormatProcessor.TerminalOutput) :
    List FormatProcessor.TerminalOutput :=
  let h2 := history ++ [o]
  if h2.length > 10000 then h2.drop (h2.length - 5000) else h2

/-- `SessionManager.handleProcessOutput` on one session: process the
chunk through the Format Engine, append to history with compaction, and
refresh the activity timestamp.  The `output` event emission and the
remote broadcast are fire-and-forget and mutate no session state. -/
def handleProcessOutput (s : Session) (data : List Nat)
    (source : FormatProcessor.StreamSource) (now : Nat) : Session :=
  { s with
    lastActivity := now
    outputHistory :=
      pushHistory s.outputHistory (FormatProcessor.processOutput data source now) }

/-- `SessionManager.handleProcessExit` on one session: records
`code || undefined` as the exit code and moves the status to
`terminated` (via `updateSessionStatus`).  The `signal` argument is only
forwarded to the remote broadcast, which mutates no session state. -/
def handleProcessExit (s : Session) (code : Option Int)
    (_signal : Option (List Char)) : Session :=
  { s with
    exitCode := jsOrUndefinedInt code
    status := .terminated }

/-- `SessionManager.getSessionHistory`.  `limit` is `Option Nat` for the
optional parameter: `undefined` (and `0`, both falsy in the source's
`limit && limit > 0` guard) leave the history unsliced; a positive limit
keeps the last `limit` records (`slice(-limit)`). -/
def getSessionHistory (sessions : List (String × Session)) (sessionId : String)
    (format : FormatProcessor.OutputFormat) (limit : Option Nat) :
    List (List Char) :=
  match sessions.lookup sessionId with
  | none => []
  | some s =>
    let history :=
      match limit with
      | some l =>
        if 0 < l then s.outputHistory.drop (s.outputHistory.length - l)
        else s.outputHistory
      | none => s.outputHistory
    history.map (fun o => FormatProcessor.serializeForTransmission o format)

/-- A running session with an empty history, for concrete evaluations. -/
def c3Session : Session :=
  { status := .running
    exitCode := none
    outputHistory := []
    lastActivity := 5 }

/-- A session whose history sits exactly at the 10000-record cap. -/
def c8Session : Session :=
  { status := .running
    exitCode := none
    outputHistory :=
      List.replicate 10000 (FormatProcessor.processOutput [] .stdout 0)
    lastActivity := 0 }

end SessionManager

end UHappy

namespace UHappy.StreamParser

/-- Claim C1: on a chunk `"Progress: 1%\rProgress: 2%\rProgress: 3%"`
arriving with empty pending content, the spec says two completed lines
(`"Progress: 1%"`, `"Progress: 2%"`) are emitted with `"Progress: 3%"`
left pending.  The code emits NO completed lines: `handleCarriageReturn`
accumulates the interior `\r` segments into its result but the final
segment (no trailing `\r`) overwrites that whole accumulation, so the
interior lines are lost.  Only the pending half of the claim holds. -/
theorem c1_progress_chunk_eval :
    (processRealTimeStream []
      ("Progress: 1%\rProgress: 2%\rProgress: 3%").data).completeLines = [] ∧
    (processRealTimeStream []
      ("Progress: 1%\rProgress: 2%\rProgress: 3%").data).newPending =
      ("Progress: 3%").data := by
  decide

/-- Claim C2, as stated, is false: completed lines are normalized by
`processSingleLine` before emission, so the first completed line for the
chunk `" a\n"` is `"a"`, not the first newline-delimited segment `" a"`
(empty segments are also skipped entirely). -/
theorem c2_counterexample :
    (runRT [(" a\n").data]).1 = [['a']] ∧
    (jsSplit '\n' (" a\n").data) = [[' ', 'a'], []] ∧
    ([['a']] : List (List Char)) ≠ [[' ', 'a']] := by
  decide

/-- Reduction of one `splitStep` on the separator. -/
theorem splitStep_sep (sep c : Char) (ls : List (List Char)) (cur : List Char)
    (h : c = sep) : splitStep sep (ls, cur) c = (ls ++ [cur], []) := by
  simp [splitStep, h]

/-- Reduction of one `splitStep` on an ordinary character. -/
theorem splitStep_ne (sep c : Char) (ls : List (List Char)) (cur : List Char)
    (h : c ≠ sep) : splitStep sep (ls, cur) c = (ls, cur ++ [c]) := by
  simp [splitStep, h]

/-- `splitStep` only ever appends to the list of finished segments, so a
prefix of that list is carried through the fold untouched. -/
theorem foldl_splitStep_prepend (sep : Char) (pre : List (List Char)) :
    ∀ (t : List Char) (ls : List (List Char)) (cur : List Char),
      t.foldl (splitStep sep) (pre ++ ls, cur) =
        (pre ++ (t.foldl (splitStep sep) (ls, cur)).1,
         (t.foldl (splitStep sep) (ls, cur)).2)
  | [], _, _ => rfl
  | c :: t, ls, cur => by
    by_cases h : c = sep
    · rw [List.foldl_cons, List.foldl_cons,
        splitStep_sep sep c (pre ++ ls) cur h, splitStep_sep sep c ls cur h,
        List.append_assoc]
      exact foldl_splitStep_prepend sep pre t (ls ++ [cur]) []
    · rw [List.foldl_cons, List.foldl_cons,
        splitStep_ne sep c (pre ++ ls) cur h, splitStep_ne sep c ls cur h]
      exact foldl_splitStep_prepend sep pre t ls (cur ++ [c])

/-- Splitting a separator-free text just extends the current segment. -/
theorem foldl_splitStep_no_sep (sep : Char) :
    ∀ (t : List Char) (ls : List (List Char)) (cur : List Char),
      (∀ c ∈ t, c ≠ sep) →
      t.foldl (splitStep sep) (ls, cur) = (ls, cur ++ t)
  | [], _, _, _ => by simp
  | c :: t, ls, cur, h => by
    have hc : c ≠ sep := h c (List.mem_cons_self c t)
    rw [List.foldl_cons, splitStep_ne sep c ls cur hc,
      foldl_splitStep_no_sep sep t ls (cur ++ [c])
        (fun d hd => h d (List.mem_cons_of_mem _ hd))]
    simp

/-- A text containing no separator splits into (no finished segments,
itself). -/
theorem splitPair_no_sep (sep : Char) (l : List Char) (h : sep ∉ l) :
    splitPair sep l = ([], l) := by
  have := foldl_splitStep_no_sep sep l [] [] (fun c hc he => h (he ▸ hc))
  simpa [splitPair] using this

/-- Splitting distributes over concatenation: the fold resumes from the
split of the first part. -/
theorem splitPair_append (sep : Char) (a b : List Char) :
    splitPair sep (a ++ b) = b.foldl (splitStep sep) (splitPair sep a) := by
  simp [splitPair, List.foldl_append]

/-- The segment under construction never contains the separator. -/
theorem sep_not_mem_foldl_snd (sep : Char) :
    ∀ (t : List Char) (ls : List (List Char)) (cur : List Char),
      sep ∉ cur → sep ∉ (t.foldl (splitStep sep) (ls, cur)).2
  | [], _, _, h => h
  | c :: t, ls, cur, h => by
    by_cases hc : c = sep
    · rw [List.foldl_cons, splitStep_sep sep c ls cur hc]
      exact sep_not_mem_foldl_snd sep t _ [] (by simp)
    · rw [List.foldl_cons, splitStep_ne sep c ls cur hc]
      refine sep_not_mem_foldl_snd sep t ls (cur ++ [c]) ?_
      intro hmem
      rcases List.mem_append.1 hmem with h1 | h1
      · exact h h1
      · simp at h1
        exact hc h1.symm

/-- The segment under construction is never longer than what has been
fed into the fold. -/
theorem foldl_splitStep_snd_length (sep : Char) :
    ∀ (t : List Char) (ls : List (List Char)) (cur : List Char),
      (t.foldl (splitStep sep) (ls, cur)).2.length ≤ cur.length + t.length
  | [], _, _ => by simp
  | c :: t, ls, cur => by
    by_cases hc : c = sep
    · rw [List.foldl_cons, splitStep_sep sep c ls cur hc]
      have := foldl_splitStep_snd_length sep t (ls ++ [cur]) []
      simp only [List.length_nil, List.length_cons] at this ⊢
      omega
    · rw [List.foldl_cons, splitStep_ne sep c ls cur hc]
      have := foldl_splitStep_snd_length sep t ls (cur ++ [c])
      simp only [List.length_append, List.length_cons, List.length_nil] at this ⊢
      omega

/-- `runRT` consumes the final chunk by one `processRealTimeStream`
step. -/
theorem runRT_append_singleton (cs : List (List Char)) (t : List Char) :
    runRT (cs ++ [t]) =
      ((runRT cs).1 ++ (processRealTimeStream (runRT cs).2 t).completeLines,
       (processRealTimeStream (runRT cs).2 t).newPending) := by
  simp [runRT, List.foldl_append]

/-- Claim C2, amended.  As long as the concatenated text contains no
carriage return and is no longer than `maxLineLength` (so the
force-completion of over-long pending lines never fires), the completed
lines emitted by the Stream Assembler, in order, are exactly the
`processSingleLine`-normalizations of the non-empty segments among all
but the last newline-delimited segment of the concatenation, and the
pending content is exactly the final segment.  (The original claim
omitted the normalization and the skipping of empty segments.) -/
theorem c2_noCR_reassembly_amended (chunks : List (List Char))
    (hCR : '\r' ∉ chunks.flatten)
    (hLen : chunks.flatten.length ≤ maxLineLength) :
    runRT chunks =
      (((splitPair '\n' chunks.flatten).1.filter (fun l => !l.isEmpty)).map
          processSingleLine,
       (splitPair '\n' chunks.flatten).2) := by
  induction chunks using List.reverseRecOn with
  | nil => rfl
  | append_singleton cs t ih =>
    rw [List.flatten_append] at hCR hLen ⊢
    simp only [List.flatten_cons, List.flatten_nil, List.append_nil] at hCR hLen ⊢
    have hCRcs : '\r' ∉ cs.flatten := fun h => hCR (List.mem_append_left _ h)
    have hCRt : '\r' ∉ t := fun h => hCR (List.mem_append_right _ h)
    have hLcs : cs.flatten.length ≤ maxLineLength := by
      rw [List.length_append] at hLen
      omega
    have ih' := ih hCRcs hLcs
    have hpNoNl : '\n' ∉ (splitPair '\n' cs.flatten).2 :=
      sep_not_mem_foldl_snd '\n' cs.flatten [] [] (by simp)
    have hpLen : (splitPair '\n' cs.flatten).2.length ≤ cs.flatten.length := by
      simpa using foldl_splitStep_snd_length '\n' cs.flatten [] []
    have hcombined :
        splitPair '\n' ((splitPair '\n' cs.flatten).2 ++ t) =
          t.foldl (splitStep '\n') ([], (splitPair '\n' cs.flatten).2) := by
      rw [splitPair_append, splitPair_no_sep '\n' _ hpNoNl]
    have hlastLen :
        (t.foldl (splitStep '\n')
            ([], (splitPair '\n' cs.flatten).2)).2.length ≤ maxLineLength := by
      have := foldl_splitStep_snd_length '\n' t []
        (splitPair '\n' cs.flatten).2
      rw [List.length_append] at hLen
      omega
    have hsplit : splitPair '\n' (cs.flatten ++ t) =
        ((splitPair '\n' cs.flatten).1 ++
           (t.foldl (splitStep '\n') ([], (splitPair '\n' cs.flatten).2)).1,
         (t.foldl (splitStep '\n') ([], (splitPair '\n' cs.flatten).2)).2) := by
      rw [splitPair_append]
      have h0 : splitPair '\n' cs.flatten =
          ((splitPair '\n' cs.flatten).1 ++ [],
           (splitPair '\n' cs.flatten).2) := by simp
      rw [h0, foldl_splitStep_prepend]
      simp
    have hPRS : processRealTimeStream (splitPair '\n' cs.flatten).2 t =
        { completeLines :=
            ((t.foldl (splitStep '\n')
                ([], (splitPair '\n' cs.flatten).2)).1.filter
              (fun l => !l.isEmpty)).map processSingleLine,
          incompleteLine :=
            if (t.foldl (splitStep '\n')
                ([], (splitPair '\n' cs.flatten).2)).2.isEmpty then none
            else some (processSingleLine
              (t.foldl (splitStep '\n')
                ([], (splitPair '\n' cs.flatten).2)).2),
          hasProgress := containsProgressIndicators t,
          newPending :=
            (t.foldl (splitStep '\n')
              ([], (splitPair '\n' cs.flatten).2)).2 } := by
      simp only [processRealTimeStream]
      rw [if_neg hCRt, hcombined, if_neg (by omega :
        ¬ (t.foldl (splitStep '\n')
            ([], (splitPair '\n' cs.flatten).2)).2.length > maxLineLength)]
    rw [runRT_append_singleton, ih', hsplit, hPRS]
    simp [List.filter_append]

/-- Claim C2 (amended) holds at the chunk sequence `["ab\nc", "d\ne"]`. -/
theorem c2_noCR_reassembly_amended_witness :
    '\r' ∉ ([("ab\nc").data, ("d\ne").data] : List (List Char)).flatten ∧
    ([("ab\nc").data, ("d\ne").data] : List (List Char)).flatten.length ≤
      maxLineLength ∧
    runRT [("ab\nc").data, ("d\ne").data] =
      (((splitPair '\n'
            ([("ab\nc").data, ("d\ne").data] : List (List Char)).flatten).1.filter
          (fun l => !l.isEmpty)).map processSingleLine,
       (splitPair '\n'
          ([("ab\nc").data, ("d\ne").data] : List (List Char)).flatten).2) :=
  ⟨by decide, by decide,
    c2_noCR_reassembly_amended [("ab\nc").data, ("d\ne").data]
      (by decide) (by decide)⟩

end UHappy.StreamParser

namespace UHappy.FormatProcessor

/-- Claim C4: on the bytes `"\x1b[31mRed\x1b[0m"` the ANSI-stripped text
is `"Red"` and exactly one color descriptor with parameter list `[31]`
is parsed — both as the spec says.  But the html serialization is NOT a
`<span>`-wrapped `"Red"`: the final escaping passes of `ansiToHtml` run
over the markup the function itself just generated, so the emitted
string contains no `'<'` at all, contradicting the spec (and the
repository README's own sample output, which shows real spans). -/
theorem c4_ansi_html_eval :
    (processOutput c4Bytes .stdout 0).text = ("Red").data ∧
    ((processOutput c4Bytes .stdout 0).formatted.filter
        (fun s => decide (s.type = AnsiSequenceType.color ∧ s.params = [31]))).length
      = 1 ∧
    serializeForTransmission (processOutput c4Bytes .stdout 0) .html =
      ("&lt;span style=\"color: #cd0000\"&gt;Red&lt;/span&gt;").data ∧
    '<' ∉ serializeForTransmission (processOutput c4Bytes .stdout 0) .html := by
  decide

/-- Decoding inverts the alphabet lookup on every six-bit value. -/
theorem charToSix_sixToChar : ∀ n : Nat, n < 64 → charToSix (sixToChar n) = some n := by
  decide

/-- No six-bit value encodes to the padding character. -/
theorem sixToChar_ne_pad : ∀ n : Nat, n < 64 → sixToChar n ≠ '=' := by
  decide

/-- Base64 decoding inverts base64 encoding on byte lists. -/
theorem b64_roundtrip :
    ∀ bs : List Nat, (∀ x ∈ bs, x < 256) → b64Decode (b64Encode bs) = some bs
  | [], _ => rfl
  | [b0], h => by
    have hb0 : b0 < 256 := h b0 (by simp)
    simp only [b64Encode, b64Decode]
    rw [if_pos (by simp),
      charToSix_sixToChar (b0 / 4) (by omega),
      charToSix_sixToChar (b0 % 4 * 16) (by omega)]
    show some [b0 / 4 * 4 + b0 % 4 * 16 / 16] = some [b0]
    have e : b0 / 4 * 4 + b0 % 4 * 16 / 16 = b0 := by omega
    rw [e]
  | [b0, b1], h => by
    have hb0 : b0 < 256 := h b0 (by simp)
    have hb1 : b1 < 256 := h b1 (by simp)
    simp only [b64Encode, b64Decode]
    rw [if_neg (fun hp => sixToChar_ne_pad (b1 % 16 * 4) (by omega) hp.1),
      if_pos (by simp),
      charToSix_sixToChar (b0 / 4) (by omega),
      charToSix_sixToChar (b0 % 4 * 16 + b1 / 16) (by omega),
      charToSix_sixToChar (b1 % 16 * 4) (by omega)]
    show some [b0 / 4 * 4 + (b0 % 4 * 16 + b1 / 16) / 16,
      (b0 % 4 * 16 + b1 / 16) % 16 * 16 + b1 % 16 * 4 / 4] = some [b0, b1]
    have e : b0 / 4 * 4 + (b0 % 4 * 16 + b1 / 16) / 16 = b0 ∧
        (b0 % 4 * 16 + b1 / 16) % 16 * 16 + b1 % 16 * 4 / 4 = b1 := by omega
    rw [e.1, e.2]
  | b0 :: b1 :: b2 :: rest, h => by
    have hb0 : b0 < 256 := h b0 (by simp)
    have hb1 : b1 < 256 := h b1 (by simp)
    have hb2 : b2 < 256 := h b2 (by simp)
    have hrest := b64_roundtrip rest
      (fun x hx => h x (by simp [hx]))
    simp only [b64Encode, b64Decode]
    rw [if_neg (fun hp => sixToChar_ne_pad (b1 % 16 * 4 + b2 / 64) (by omega) hp.1),
      if_neg (fun hp => sixToChar_ne_pad (b2 % 64) (by omega) hp.1),
      charToSix_sixToChar (b0 / 4) (by omega),
      charToSix_sixToChar (b0 % 4 * 16 + b1 / 16) (by omega),
      charToSix_sixToChar (b1 % 16 * 4 + b2 / 64) (by omega),
      charToSix_sixToChar (b2 % 64) (by omega), hrest]
    show some ((b0 / 4 * 4 + (b0 % 4 * 16 + b1 / 16) / 16) ::
        ((b0 % 4 * 16 + b1 / 16) % 16 * 16 + (b1 % 16 * 4 + b2 / 64) / 4) ::
        ((b1 % 16 * 4 + b2 / 64) % 4 * 64 + b2 % 64) :: rest) =
      some (b0 :: b1 :: b2 :: rest)
    have e : b0 / 4 * 4 + (b0 % 4 * 16 + b1 / 16) / 16 = b0 ∧
        (b0 % 4 * 16 + b1 / 16) % 16 * 16 + (b1 % 16 * 4 + b2 / 64) / 4 = b1 ∧
        (b1 % 16 * 4 + b2 / 64) % 4 * 64 + b2 % 64 = b2 := by omega
    rw [e.1, e.2.1, e.2.2]

/-- Claim C9: serializing any processed output in `'raw'` format and
base64-decoding the result recovers exactly the original bytes, on any
channel — `processOutput` stores the input buffer unchanged in `raw`,
and `'raw'` serialization is its base64 encoding. -/
theorem c9_raw_roundtrip (data : List Nat) (source : StreamSource) (now : Nat)
    (h : ∀ x ∈ data, x < 256) :
    b64Decode (serializeForTransmission (processOutput data source now) .raw) =
      some data :=
  b64_roundtrip data h

/-- Claim C9 holds at the bytes `[0, 255, 27, 5]` on stderr. -/
theorem c9_raw_roundtrip_witness :
    (∀ x ∈ ([0, 255, 27, 5] : List Nat), x < 256) ∧
    b64Decode (serializeForTransmission
        (processOutput [0, 255, 27, 5] .stderr 42) .raw) =
      some [0, 255, 27, 5] :=
  ⟨by decide, c9_raw_roundtrip [0, 255, 27, 5] .stderr 42 (by decide)⟩

end UHappy.FormatProcessor

namespace UHappy.ProcessManager

/-- Claim C5, as stated, is false: when the caller supplies `LANG` (or
`LC_ALL`) in `config.env`, the caller's value does NOT win — the two
locale literals are spread after the caller overrides in
`createChildProcess`, so `LANG` comes out as `en_US.UTF-8` even though
the caller asked for `C`. -/
theorem c5_counterexample :
    spawnEnv (fun _ => none)
        (fun k => if k = "LANG" then some "C" else none) "LANG" =
      some "en_US.UTF-8" ∧
    (fun k => if k = "LANG" then some "C" else none : String → Option String)
        "LANG" = some "C" ∧
    (some "C" : Option String) ≠ some "en_US.UTF-8" := by
  decide

/-- Claim C5, amended: the spawned process's environment is the wrapper's
environment overlaid with the caller's `config.env` — the caller winning
on every key conflict — EXCEPT for the UTF-8 locale keys `LANG` and
`LC_ALL`, which are always forced to `en_US.UTF-8` (overriding even a
caller-supplied value). -/
theorem c5_env_overlay_amended (procEnv cfgEnv : String → Option String)
    (k : String) (h1 : k ≠ "LANG") (h2 : k ≠ "LC_ALL") :
    spawnEnv procEnv cfgEnv "LANG" = some "en_US.UTF-8" ∧
    spawnEnv procEnv cfgEnv "LC_ALL" = some "en_US.UTF-8" ∧
    spawnEnv procEnv cfgEnv k =
      (match cfgEnv k with
       | some v => some v
       | none => procEnv k) := by
  refine ⟨?_, ?_, ?_⟩
  · simp [spawnEnv]
  · simp [spawnEnv]
  · simp [spawnEnv, h1, h2]

/-- Claim C5 (amended) holds at the key `"PATH"` with a caller override
in place. -/
theorem c5_env_overlay_amended_witness :
    ("PATH" : String) ≠ "LANG" ∧ ("PATH" : String) ≠ "LC_ALL" ∧
    (spawnEnv (fun _ => some "inherited")
        (fun k => if k = "PATH" then some "/bin" else none) "LANG" =
      some "en_US.UTF-8" ∧
    spawnEnv (fun _ => some "inherited")
        (fun k => if k = "PATH" then some "/bin" else none) "LC_ALL" =
      some "en_US.UTF-8" ∧
    spawnEnv (fun _ => some "inherited")
        (fun k => if k = "PATH" then some "/bin" else none) "PATH" =
      (match (fun k => if k = "PATH" then some "/bin" else none : String → Option String) "PATH" with
       | some v => some v
       | none => (fun _ => some "inherited" : String → Option String) "PATH")) :=
  ⟨by decide, by decide,
    c5_env_overlay_amended (fun _ => some "inherited")
      (fun k => if k = "PATH" then some "/bin" else none) "PATH"
      (by decide) (by decide)⟩

/-- Claim C6, as stated, is false on one family of inputs: a spawn at the
cap whose id is ALREADY tracked fails with the duplicate-id error, not
`ResourceExhausted`, because `spawn` checks the duplicate id first. -/
theorem c6_counterexample :
    fullProcessSet.length = maxProcesses ∧
    (spawn fullProcessSet "p0" none).1 = .error .duplicateId ∧
    (Except.error PMError.duplicateId : Except PMError ManagedProcess) ≠
      .error .resourceExhausted := by
  decide

/-- Claim C6, amended: a spawn at (or beyond) the 50-process cap whose id
is not already tracked fails with `ResourceExhausted`, and the
tracked-process map is exactly the map before the call, whatever the OS
would have answered. -/
theorem c6_spawn_at_cap_amended (processes : List (String × ManagedProcess))
    (processId : String) (osPid : Option Nat)
    (h1 : processes.lookup processId = none)
    (h2 : maxProcesses ≤ processes.length) :
    spawn processes processId osPid = (.error .resourceExhausted, processes) := by
  unfold spawn
  rw [h1]
  simp [h2]

/-- Claim C6 (amended) holds at the full 50-process map with the fresh
id `"q"`. -/
theorem c6_spawn_at_cap_amended_witness :
    fullProcessSet.lookup "q" = none ∧
    maxProcesses ≤ fullProcessSet.length ∧
    spawn fullProcessSet "q" (some 1) =
      (.error .resourceExhausted, fullProcessSet) :=
  ⟨by decide, by decide,
    c6_spawn_at_cap_amended fullProcessSet "q" (some 1) (by decide) (by decide)⟩

/-- Claim C7: killing a process whose status is already `terminated` (for
any signal, and whatever the grace-wait would observe) returns
successfully, delivers no signal, and leaves the tracked-process map
exactly as it was. -/
theorem c7_kill_terminated_noop (processes : List (String × ManagedProcess))
    (processId : String) (signal : List Char) (exitsWithinGrace : Bool)
    (mp : ManagedProcess) (hm : processes.lookup processId = some mp)
    (hst : mp.status = .terminated) :
    kill processes processId signal exitsWithinGrace =
      (.ok (), processes, []) := by
  unfold kill
  rw [hm]
  simp [hst]

/-- Claim C7 holds at a concrete one-entry map with a terminated process
and a `SIGKILL` request. -/
theorem c7_kill_terminated_noop_witness :
    c7Processes.lookup "p0" =
      some { status := .terminated, pid := some 7, exitCode := none,
             signal := some (("SIGTERM").data) } ∧
    ({ status := .terminated, pid := some 7, exitCode := none,
       signal := some (("SIGTERM").data) } : ManagedProcess).status =
      .terminated ∧
    kill c7Processes "p0" (("SIGKILL").data) true = (.ok (), c7Processes, []) :=
  ⟨by decide, rfl,
    c7_kill_terminated_noop c7Processes "p0" (("SIGKILL").data) true
      { status := .terminated, pid := some 7, exitCode := none,
        signal := some (("SIGTERM").data) }
      (by decide) rfl⟩

end UHappy.ProcessManager

namespace UHappy.SessionManager

/-- Claim C3: on a normal exit with code 0 the session does reach
`terminated`, but the recorded exit code is ABSENT (`undefined`), not 0:
both `handleProcessExit` and the `'exit'` listener in `ProcessManager`
store `code || undefined`, and `0` is falsy in JavaScript.  (The
signal half behaves as claimed: a `SIGTERM` kill records the signal on
the managed process, with no exit code.) -/
theorem c3_exit_code_zero_eval :
    (handleProcessExit c3Session (some 0) none).status = .terminated ∧
    (handleProcessExit c3Session (some 0) none).exitCode = none ∧
    (ProcessManager.onChildExit
        { status := .running, pid := some 42, exitCode := none, signal := none }
        (some 0) none).status = .terminated ∧
    (ProcessManager.onChildExit
        { status := .running, pid := some 42, exitCode := none, signal := none }
        (some 0) none).exitCode = none ∧
    (ProcessManager.onChildExit
        { status := .running, pid := some 42, exitCode := none, signal := none }
        none (some (("SIGTERM").data))).signal = some (("SIGTERM").data) ∧
    (none : Option Int) ≠ some 0 := by
  decide

/-- The history update of `handleProcessOutput` keeps the cap: starting
from any history within the 10000-record cap, the pushed history stays
within the cap, and on overflow it is exactly the most recent 5000
records — a suffix of the appended history, so oldest-first eviction
with order preserved. -/
theorem pushHistory_spec (history : List FormatProcessor.TerminalOutput)
    (o : FormatProcessor.TerminalOutput) (h : history.length ≤ 10000) :
    (pushHistory history o).length ≤ 10000 ∧
    (10000 < history.length + 1 →
      (pushHistory history o).length = 5000 ∧
      pushHistory history o <:+ (history ++ [o])) := by
  unfold pushHistory
  by_cases hc : (history ++ [o]).length > 10000
  · rw [if_pos hc]
    simp only [List.length_append, List.length_cons, List.length_nil] at hc
    refine ⟨?_, fun _ => ⟨?_, List.drop_suffix _ _⟩⟩
    · rw [List.length_drop]
      simp
      omega
    · rw [List.length_drop]
      simp
      omega
  · rw [if_neg hc]
    simp only [List.length_append, List.length_cons, List.length_nil] at hc
    refine ⟨by simp; omega, fun h2 => absurd h2 (by omega)⟩

/-- Claim C8: after an output-chunk handler runs on a session whose
history respects the 10000-record cap, the history still respects the
cap; and whenever the append overflows the cap the history is compacted
to exactly the most recent 5000 records, a suffix of the appended
history (oldest dropped first, order of the rest preserved). -/
theorem c8_history_cap (s : Session) (data : List Nat)
    (source : FormatProcessor.StreamSource) (now : Nat)
    (h : s.outputHistory.length ≤ 10000) :
    (handleProcessOutput s data source now).outputHistory.length ≤ 10000 ∧
    (10000 < s.outputHistory.length + 1 →
      (handleProcessOutput s data source now).outputHistory.length = 5000 ∧
      (handleProcessOutput s data source now).outputHistory <:+
        (s.outputHistory ++ [FormatProcessor.processOutput data source now])) :=
  pushHistory_spec s.outputHistory (FormatProcessor.processOutput data source now) h

/-- Claim C8 holds at a session sitting exactly at the cap, where the
compaction fires. -/
theorem c8_history_cap_witness :
    c8Session.outputHistory.length ≤ 10000 ∧
    ((handleProcessOutput c8Session [] .stdout 1).outputHistory.length ≤ 10000 ∧
     (10000 < c8Session.outputHistory.length + 1 →
       (handleProcessOutput c8Session [] .stdout 1).outputHistory.length = 5000 ∧
       (handleProcessOutput c8Session [] .stdout 1).outputHistory <:+
         (c8Session.outputHistory ++
           [FormatProcessor.processOutput [] .stdout 1]))) :=
  ⟨by
    show (List.replicate 10000
      (FormatProcessor.processOutput [] FormatProcessor.StreamSource.stdout 0)).length ≤ 10000
    rw [List.length_replicate],
   c8_history_cap c8Session [] .stdout 1 (by
    show (List.replicate 10000
      (FormatProcessor.processOutput [] FormatProcessor.StreamSource.stdout 0)).length ≤ 10000
    rw [List.length_replicate])⟩

/-- Claim C10: fetching history for an unknown session id returns the
empty list — no `NotFound` error — for every format and every limit.
(`getSessionHistory` performs no writes at all: the embedding is a pure
read of the session map.) -/
theorem c10_missing_session_history (sessions : List (String × Session))
    (sessionId : String) (format : FormatProcessor.OutputFormat)
    (limit : Option Nat) (h : sessions.lookup sessionId = none) :
    getSessionHistory sessions sessionId format limit = [] := by
  unfold getSessionHistory
  rw [h]

/-- Claim C10 holds at a concrete non-empty session map and an absent
id. -/
theorem c10_missing_session_history_witness :
    ([("a", c3Session)] : List (String × Session)).lookup "b" = none ∧
    getSessionHistory [("a", c3Session)] "b" .html (some 5) = [] :=
  ⟨by decide, c10_missing_session_history [("a", c3Session)] "b" .html (some 5)
    (by decide)⟩

end UHappy.SessionManager
